import Mathlib

/-!
Verification development for the gameplay simulation layer of the
turbo-drift-3d repository.

The JavaScript source is shallowly embedded over the rationals:
- `Car` (src/cars/Car.js): kinematics, nitro state machine, damage,
  collision handlers, serialization.
- `EnemyCar` (src/cars/EnemyCar.js): AI rival update, nitro heuristics,
  collision and serialization helpers.
- `Track.getTrackProgress` (src/world/Track.js): nearest-sample progress query.
- `Game` (main game file): race-logic checkpoint latch, vehicle collisions,
  destructible props.

Numbers are modelled as `ℚ`.  The two transcendental operations that occur in
the source (`Math.pow` for the frame-rate-independent friction factor, and the
yaw/roll rotation of the forward vector via the mesh quaternion) are carried as
opaque oracle functions in a `CarEnv` parameter; every theorem that touches
them is proved for all oracles, or instantiated at an explicit oracle when a
closed statement is required.  Randomness (`Math.random()` draws) is passed in
explicitly as rational inputs in `[0,1)`.
-/

namespace TurboDrift

/-- A 3D vector of rationals, standing for `THREE.Vector3`. -/
abbrev Vec3 : Type := ℚ × ℚ × ℚ

/-- Componentwise vector addition. -/
def vadd (a b : Vec3) : Vec3 := (a.1 + b.1, a.2.1 + b.2.1, a.2.2 + b.2.2)

/-- Componentwise vector subtraction. -/
def vsub (a b : Vec3) : Vec3 := (a.1 - b.1, a.2.1 - b.2.1, a.2.2 - b.2.2)

/-- Scalar multiplication of a vector. -/
def vscale (s : ℚ) (a : Vec3) : Vec3 := (s * a.1, s * a.2.1, s * a.2.2)

/-- Squared Euclidean distance between two points
(`THREE.Vector3.distanceToSquared`). -/
def distSq (a b : Vec3) : ℚ :=
  (a.1 - b.1) ^ 2 + (a.2.1 - b.2.1) ^ 2 + (a.2.2 - b.2.2) ^ 2

/-- Linear interpolation, `THREE.MathUtils.lerp(a, b, t) = a + (b - a) * t`. -/
def lerp (a b t : ℚ) : ℚ := a + (b - a) * t

/-- Truncation toward zero, as used by the JavaScript `%` operator. -/
def jsTrunc (q : ℚ) : ℤ := if 0 ≤ q then ⌊q⌋ else ⌈q⌉

/-- The JavaScript expression `q % 1`: `q` minus its truncation toward zero,
so the result carries the sign of `q`. -/
def jsRem (q : ℚ) : ℚ := q - jsTrunc q

theorem jsRem_nonneg {q : ℚ} (h : 0 ≤ q) : 0 ≤ jsRem q := by
  simp only [jsRem, jsTrunc, if_pos h, sub_nonneg]
  exact_mod_cast Int.floor_le q |>.trans_eq rfl

theorem jsRem_lt_one {q : ℚ} (h : 0 ≤ q) : jsRem q < 1 := by
  simp only [jsRem, jsTrunc, if_pos h]
  have := Int.lt_floor_add_one q
  linarith

theorem neg_one_lt_jsRem (q : ℚ) : -1 < jsRem q := by
  by_cases h : 0 ≤ q
  · have := jsRem_nonneg h; linarith
  · simp only [jsRem, jsTrunc, if_neg h]
    have := Int.ceil_lt_add_one q
    linarith

theorem jsRem_lt_one' (q : ℚ) : jsRem q < 1 := by
  by_cases h : 0 ≤ q
  · exact jsRem_lt_one h
  · simp only [jsRem, jsTrunc, if_neg h]
    have := Int.le_ceil q
    linarith

/-- Exact rational square root: `some r` with `r * r = q` and `0 ≤ r` when such
an `r` exists, `none` otherwise.  Supports the embedding of
`THREE.Vector3.normalize` at inputs whose length is exactly rational. -/
def ratSqrt (q : ℚ) : Option ℚ :=
  if 0 ≤ q then
    let a := Nat.sqrt q.num.toNat
    let b := Nat.sqrt q.den
    if a * a = q.num.toNat ∧ b * b = q.den then some ((a : ℚ) / (b : ℚ)) else none
  else none

/-- Model of `THREE.Vector3.normalize`, `v.divideScalar(v.length() || 1)`:
divides by the length when the length is exactly rational and nonzero, keeps
the zero vector fixed, and is left unspecified (identity) at vectors of
irrational length — theorems that depend on a direction carry an exactness
hypothesis or use concrete inputs with rational length. -/
def normalizeQ (v : Vec3) : Vec3 :=
  match ratSqrt (distSq v (0, 0, 0)) with
  | some l => if l = 0 then v else vscale (1 / l) v
  | none => v

/-! ## Car (src/cars/Car.js) -/

/-- Tunables of the `Car` constructor (`this.config`), with the source's
default values available as `defaultCarConfig`. -/
structure CarConfig where
  maxSpeed : ℚ
  acceleration : ℚ
  friction : ℚ
  steeringPower : ℚ
  nitroCapacity : ℚ
  nitroPower : ℚ
  nitroDrainRate : ℚ
  nitroRegenRate : ℚ
  nitroCooldownSec : ℚ
  collisionRadius : ℚ
deriving DecidableEq

/-- The default `Car` configuration from the source. -/
def defaultCarConfig : CarConfig where
  maxSpeed := 7/5
  acceleration := 17/20
  friction := 97/100
  steeringPower := 11/5
  nitroCapacity := 100
  nitroPower := 8/5
  nitroDrainRate := 30
  nitroRegenRate := 5
  nitroCooldownSec := 3/4
  collisionRadius := 2

/-- The mutable simulation state of a `Car`.  Render-only data (meshes, wheel
spin, brake-light colors, debug helpers) is out of the model; `pos` stands for
`this.mesh.position`, `accSmoothed` for `this._accSmoothed`,
`lastCollisionTime` for `this._lastCollisionTime` (milliseconds). -/
structure CarState where
  pos : Vec3
  rotation : ℚ
  speed : ℚ
  driftFactor : ℚ
  accSmoothed : ℚ
  health : ℚ
  invulnerable : Bool
  nitroAmount : ℚ
  nitroCooldown : ℚ
  progress : ℚ
  lastCollisionTime : ℚ
  cameraShake : ℚ
deriving DecidableEq

/-- The keyboard inputs read by `Car.update` (`input.keys`). -/
structure CarInput where
  w : Bool
  s : Bool
  a : Bool
  d : Bool
  shift : Bool
deriving DecidableEq

/-- The discrete events a `Car` can emit. -/
inductive CarEvent where
  | damage (amount : ℚ)
  | destroyed
  | collision (impulse : ℚ)
  | nitro (amount : ℚ)
  | nitroEmpty
  | drift (factor : ℚ)
deriving DecidableEq

/-- Oracles for the two transcendental operations in `Car.update`:
`fricPow dt` is `Math.pow(config.friction, dt * 60 * 0.016)` and
`forwardDir yaw roll` is `(0,0,-1)` rotated by the mesh quaternion built from
Euler angles `(0, yaw, roll)`.  Theorems hold for all oracles. -/
structure CarEnv where
  fricPow : ℚ → ℚ
  forwardDir : ℚ → ℚ → Vec3

/-- An arbitrary concrete instantiation of the oracles, used only where a
closed statement is required about quantities that do not depend on them. -/
def oneCarEnv : CarEnv where
  fricPow := fun _ => 1
  forwardDir := fun _ _ => (0, 0, -1)

/-- A freshly constructed `Car`'s state (constructor of `Car`). -/
def freshCar (cfg : CarConfig) : CarState where
  pos := (0, 0, 0)
  rotation := 0
  speed := 0
  driftFactor := 0
  accSmoothed := 0
  health := 100
  invulnerable := false
  nitroAmount := cfg.nitroCapacity
  nitroCooldown := 0
  progress := 0
  lastCollisionTime := 0
  cameraShake := 0

namespace Car

/-- `Car._useNitro(dt)`: returns whether nitro was consumed, the new amount
and cooldown, and the emitted events. -/
def useNitro (cfg : CarConfig) (amount cooldown dt : ℚ) :
    (Bool × ℚ × ℚ) × List CarEvent :=
  if 0 < cooldown then ((false, amount, cooldown), [])
  else if amount ≤ 0 then ((false, amount, cfg.nitroCooldownSec), [.nitroEmpty])
  else
    let a := max 0 (amount - cfg.nitroDrainRate * dt)
    let cd := if a = 0 then cfg.nitroCooldownSec else cooldown
    ((true, a, cd), [.nitro a])

/-- `Car._regenNitro(dt)`: counts the cooldown down, or regenerates toward
capacity once the cooldown has expired. -/
def regenNitro (cfg : CarConfig) (amount cooldown dt : ℚ) : ℚ × ℚ :=
  if 0 < cooldown then (amount, max 0 (cooldown - dt))
  else (min cfg.nitroCapacity (amount + cfg.nitroRegenRate * dt), cooldown)

/-- Step 1 of `Car.update`: smooth the throttle/brake intent and integrate it
into the speed.  Returns the new `_accSmoothed` and the new speed. -/
def accelPhase (cfg : CarConfig) (accSmoothed speed : ℚ) (w s : Bool) (dt : ℚ) :
    ℚ × ℚ :=
  let acc := lerp accSmoothed ((if w then (1 : ℚ) else 0) - (if s then (1 : ℚ) else 0))
    (min 1 (dt * 8))
  let speed' :=
    if 1/100 < acc then speed + cfg.acceleration * acc * dt
    else if acc < -(1/100) then speed + cfg.acceleration * acc * dt * (3/2)
    else speed
  (acc, speed')

/-- Step 2 of `Car.update`: the nitro subsystem.  Takes the speed after the
acceleration step; returns the boosted speed, the new nitro amount and
cooldown, and the nitro events. -/
def nitroPhase (cfg : CarConfig) (speed amount cooldown : ℚ) (shiftKey : Bool)
    (dt : ℚ) : (ℚ × ℚ × ℚ) × List CarEvent :=
  if shiftKey ∧ 0 < amount ∧ cooldown ≤ 0 then
    let r := useNitro cfg amount cooldown dt
    let speed' :=
      if r.1.1 then min (cfg.maxSpeed * cfg.nitroPower) (speed + cfg.acceleration * dt * (6/5))
      else speed
    ((speed', r.1.2.1, r.1.2.2), r.2)
  else
    let r := regenNitro cfg amount cooldown dt
    ((speed, r.1, r.2), [])

/-- Step 3 of `Car.update`: the speed limiter, clamping to
`[-maxSpeed/2, maxSpeed]` (the source always uses `this.maxSpeed` as the
ceiling, whether or not nitro is draining). -/
def clampSpeed (cfg : CarConfig) (speed : ℚ) : ℚ :=
  let s1 := if cfg.maxSpeed < speed then cfg.maxSpeed else speed
  if s1 < -cfg.maxSpeed / 2 then -cfg.maxSpeed / 2 else s1

/-- The speed value right after steps 1–2 of `Car.update`, before the limiter. -/
def preClampSpeed (cfg : CarConfig) (c : CarState) (inp : CarInput) (dt : ℚ) : ℚ :=
  let a := accelPhase cfg c.accSmoothed c.speed inp.w inp.s dt
  (nitroPhase cfg a.2 c.nitroAmount c.nitroCooldown inp.shift dt).1.1

/-- The speed value right after the speed-clamp step of `Car.update`. -/
def speedAfterClamp (cfg : CarConfig) (c : CarState) (inp : CarInput) (dt : ℚ) : ℚ :=
  clampSpeed cfg (preClampSpeed cfg c inp dt)

/-- Step 5 of `Car.update`: steering and drift.  Returns the new yaw and
drift factor from the post-friction speed. -/
def steerPhase (cfg : CarConfig) (speed rotation drift : ℚ) (a d : Bool)
    (dt : ℚ) : ℚ × ℚ :=
  if 3/100 < |speed| then
    let steerSign : ℚ := if 0 < speed then 1 else -1
    let steerScale := |speed| / cfg.maxSpeed
    let steerAmount := cfg.steeringPower * dt * steerSign * steerScale
    if a then (rotation + steerAmount, lerp drift (1/4 * steerScale) (min 1 (dt * 6)))
    else if d then (rotation - steerAmount, lerp drift (-(1/4) * steerScale) (min 1 (dt * 6)))
    else (rotation, lerp drift 0 (min 1 (dt * 6)))
  else (rotation, lerp drift 0 (min 1 (dt * 8)))

/-- `Car.update(input, dt)`: the per-frame state machine.  Returns the new
state and the events emitted during the call.  A non-positive `dt` is the
guard `if (!dt || dt <= 0) return;`. -/
def update (env : CarEnv) (cfg : CarConfig) (c : CarState) (inp : CarInput)
    (dt : ℚ) : CarState × List CarEvent :=
  if dt ≤ 0 then (c, []) else
    let a := accelPhase cfg c.accSmoothed c.speed inp.w inp.s dt
    let n := nitroPhase cfg a.2 c.nitroAmount c.nitroCooldown inp.shift dt
    let clamped := clampSpeed cfg n.1.1
    let speed := clamped * env.fricPow dt
    let st := steerPhase cfg speed c.rotation c.driftFactor inp.a inp.d dt
    let roll := st.2 * (speed / max (1/1000) cfg.maxSpeed)
    let pos := vadd c.pos (vscale speed (env.forwardDir st.1 roll))
    let driftEvents := if 3/20 < |st.2| then [CarEvent.drift st.2] else []
    ({ c with
        accSmoothed := a.1
        nitroAmount := n.1.2.1
        nitroCooldown := n.1.2.2
        speed := speed
        rotation := st.1
        driftFactor := st.2
        pos := pos
        progress := c.progress },
      n.2 ++ driftEvents)

/-- A sequence of `Car.update` calls, discarding the events. -/
def runUpdates (env : CarEnv) (cfg : CarConfig) (c : CarState)
    (l : List (CarInput × ℚ)) : CarState :=
  l.foldl (fun s p => (update env cfg s p.1 p.2).1) c

/-- `Car.applyDamage(amount)`: fails closed while invulnerable; clamps health
at zero and kills the speed on destruction. -/
def applyDamage (c : CarState) (amount : ℚ) : CarState × List CarEvent :=
  if c.invulnerable then (c, [])
  else
    let c1 := { c with health := c.health - amount }
    if c1.health ≤ 0 then
      ({ c1 with health := 0, speed := 0 }, [.damage amount, .destroyed])
    else (c1, [.damage amount])

/-- `Car.handleCollisionWithObject(obj, normal, severity)`: debounced by a
100 ms window on `now` (`performance.now()`); applies damage proportional to
`|speed| * severity`, pushes the car along the normal, and reflects the
speed with restitution `-0.5`. -/
def handleCollisionWithObject (now : ℚ) (c : CarState) (normal : Vec3)
    (severity : ℚ) : CarState × List CarEvent :=
  if now - c.lastCollisionTime < 100 then (c, [])
  else
    let c1 := { c with lastCollisionTime := now }
    let impulse := |c1.speed| * severity
    let r := applyDamage c1 (impulse * 10)
    let c2 := r.1
    let c3 := { c2 with
        pos := vadd c2.pos (vscale (4/5 * severity) normal)
        speed := c2.speed * (-(1/2))
        cameraShake := 4/5 }
    (c3, r.2 ++ [.collision impulse])

/-- `Car.handleCollisionSimple(obj)`: pushes away from the other object's
center with severity 1. -/
def handleCollisionSimple (now : ℚ) (c : CarState) (objPos : Vec3) :
    CarState × List CarEvent :=
  handleCollisionWithObject now c (normalizeQ (vsub c.pos objPos)) 1

/-- The serialized snapshot produced by `Car.toJSON`; optional fields model
keys that may be absent or of the wrong type in `Car.fromJSON`'s input. -/
structure CarJSON where
  position : Option Vec3
  rotation : Option ℚ
  speed : Option ℚ
  health : Option ℚ
  nitro : Option ℚ
  progress : Option ℚ
deriving DecidableEq

/-- `Car.toJSON()`. -/
def toJSON (c : CarState) : CarJSON where
  position := some c.pos
  rotation := some c.rotation
  speed := some c.speed
  health := some c.health
  nitro := some c.nitroAmount
  progress := some c.progress

/-- `Car.fromJSON(data)`: each present (and correctly typed) key overwrites
its field; absent keys leave the field alone. -/
def fromJSON (c : CarState) (d : CarJSON) : CarState :=
  let c := match d.position with | some p => { c with pos := p } | none => c
  let c := match d.rotation with | some r => { c with rotation := r } | none => c
  let c := match d.speed with | some s => { c with speed := s } | none => c
  let c := match d.health with | some h => { c with health := h } | none => c
  let c := match d.nitro with | some n => { c with nitroAmount := n } | none => c
  match d.progress with | some p => { c with progress := p } | none => c

/-- The empty JSON object `{}` (also the missing-argument default). -/
def emptyJSON : CarJSON where
  position := none
  rotation := none
  speed := none
  health := none
  nitro := none
  progress := none

end Car

/-! ## EnemyCar (src/cars/EnemyCar.js) -/

/-- The `EnemyCar` constructor's `this.config`.  The constructor draws
`baseSpeed` and `nitroDuration` randomly per instance, so they are fields
here; `defaultEnemyConfig r s` realizes the constructor at draws `r`, `s`. -/
structure EnemyConfig where
  baseSpeed : ℚ
  nitroMultiplier : ℚ
  nitroDuration : ℚ
  nitroCooldownMin : ℚ
  nitroCooldownMax : ℚ
  laneSwitchMin : ℚ
  laneSwitchMax : ℚ
  laneWidth : ℚ
  collisionRadius : ℚ
deriving DecidableEq

/-- The `EnemyCar` configuration at constructor random draws `r`, `s` in
`[0,1)` for the base speed and nitro duration. -/
def defaultEnemyConfig (r s : ℚ) : EnemyConfig where
  baseSpeed := 9/50 + r * (3/50)
  nitroMultiplier := 8/5
  nitroDuration := 3/2 + s * (3/2)
  nitroCooldownMin := 4
  nitroCooldownMax := 12
  laneSwitchMin := 5/2
  laneSwitchMax := 6
  laneWidth := 9/2
  collisionRadius := 2

/-- The mutable simulation state of an `EnemyCar`; `pos` stands for
`this.group.position`, `tLane` for `this._tLane`. -/
structure EnemyState where
  progress : ℚ
  speed : ℚ
  laneOffset : ℚ
  targetLaneOffset : ℚ
  isNitroActive : Bool
  nitroTimer : ℚ
  nitroCooldown : ℚ
  tLane : ℚ
  pos : Vec3
deriving DecidableEq

/-- The events an `EnemyCar` can emit. -/
inductive EnemyEvent where
  | nitroStart
  | nitroEnd
  | collision
deriving DecidableEq

/-- The `Math.random()` draws that one `EnemyCar.update` call can consume, as
explicit inputs in `[0,1)`: the activation chance, the post-nitro cooldown
draw, and the lane-switch target and interval draws. -/
structure EnemyRand where
  chance : ℚ
  cooldown : ℚ
  laneTarget : ℚ
  laneInterval : ℚ
deriving DecidableEq

/-- Oracles for `this.trackCurve`: the curve point at a parameter and the
normalized side vector `cross(up, tangent)` at a parameter. -/
structure EnemyEnv where
  pointAt : ℚ → Vec3
  side : ℚ → Vec3

/-- A concrete oracle instantiation used only for closed statements about
quantities that do not depend on the curve. -/
def oneEnemyEnv : EnemyEnv where
  pointAt := fun _ => (0, 0, 0)
  side := fun _ => (1, 0, 0)

namespace EnemyCar

/-- `EnemyCar.requestNitro()`: activates nitro unless already active or
cooling down; returns the new state, whether it was granted, and events. -/
def requestNitro (cfg : EnemyConfig) (e : EnemyState) :
    EnemyState × Bool × List EnemyEvent :=
  if e.isNitroActive ∨ 0 < e.nitroCooldown then (e, false, [])
  else ({ e with isNitroActive := true, nitroTimer := cfg.nitroDuration },
    true, [.nitroStart])

/-- `EnemyCar.update(dt, options)`: cooldown countdown, AI nitro activation
(rubber-banding against `options.playerProgress` or a 0.002-probability
draw), nitro drive or relax toward base speed, progress advance with `%= 1`
wraparound, lane switching, and curve placement. -/
def update (env : EnemyEnv) (cfg : EnemyConfig) (e : EnemyState) (dt : ℚ)
    (playerProgress : Option ℚ) (rnd : EnemyRand) :
    EnemyState × List EnemyEvent :=
  if dt ≤ 0 then (e, []) else
    let e1 := { e with nitroCooldown := max 0 (e.nitroCooldown - dt) }
    let act :=
      if e1.isNitroActive = false ∧ e1.nitroCooldown ≤ (0 : ℚ) then
        let behind : Bool :=
          match playerProgress with
          | some p => decide (e1.progress + 1/20 < p)
          | none => false
        let should : Bool := behind || decide (rnd.chance < 1/500)
        if should then
          let r := requestNitro cfg e1
          (r.1, r.2.2)
        else (e1, [])
      else (e1, [])
    let e2 := act.1
    let drv :=
      if e2.isNitroActive then
        let timer := e2.nitroTimer - dt
        let speed := lerp e2.speed (cfg.baseSpeed * cfg.nitroMultiplier) (min 1 (dt * 6))
        if timer ≤ 0 then
          let cd := cfg.nitroCooldownMin +
            rnd.cooldown * (cfg.nitroCooldownMax - cfg.nitroCooldownMin)
          ({ e2 with
              nitroTimer := timer
              speed := speed
              isNitroActive := false
              nitroCooldown := cd },
            [EnemyEvent.nitroEnd])
        else ({ e2 with nitroTimer := timer, speed := speed }, [])
      else ({ e2 with speed := lerp e2.speed cfg.baseSpeed (dt * (1/2)) }, [])
    let e3 := drv.1
    let e4 := { e3 with progress := jsRem (e3.progress + e3.speed * dt) }
    let tl := e4.tLane - dt
    let e5 :=
      if tl ≤ 0 then
        { e4 with
            targetLaneOffset := (rnd.laneTarget - 1/2) * cfg.laneWidth * 2,
            tLane := cfg.laneSwitchMin +
              rnd.laneInterval * (cfg.laneSwitchMax - cfg.laneSwitchMin) }
      else { e4 with tLane := tl }
    let laneLerp := min 1 (dt * (if e5.isNitroActive then 14/5 else 8/5))
    let e6 := { e5 with laneOffset := lerp e5.laneOffset e5.targetLaneOffset laneLerp }
    let e7 := { e6 with
        pos := vadd (env.pointAt e6.progress) (vscale e6.laneOffset (env.side e6.progress)) }
    (e7, act.2 ++ drv.2)

/-- `EnemyCar.handleCollisionSimple(obj)`: push 0.8 units away from the other
object's center and reflect the speed with restitution `-0.5`. -/
def handleCollisionSimple (e : EnemyState) (objPos : Vec3) :
    EnemyState × List EnemyEvent :=
  let dir := normalizeQ (vsub e.pos objPos)
  ({ e with pos := vadd e.pos (vscale (4/5) dir), speed := e.speed * (-(1/2)) },
    [.collision])

/-- The serialized snapshot of `EnemyCar.toJSON` with optional keys, as read
back by `EnemyCar.fromJSON` (`!= null` checks). -/
structure EnemyJSON where
  progress : Option ℚ
  laneOffset : Option ℚ
  speed : Option ℚ
  isNitroActive : Option Bool
deriving DecidableEq

/-- `EnemyCar.fromJSON(data)`. -/
def fromJSON (e : EnemyState) (d : EnemyJSON) : EnemyState :=
  let e := match d.progress with | some p => { e with progress := p } | none => e
  let e := match d.laneOffset with | some l => { e with laneOffset := l } | none => e
  let e := match d.speed with | some s => { e with speed := s } | none => e
  match d.isNitroActive with | some b => { e with isNitroActive := b } | none => e

/-- The empty JSON object `{}` (also the missing-argument default). -/
def emptyJSON : EnemyJSON where
  progress := none
  laneOffset := none
  speed := none
  isNitroActive := none

end EnemyCar

/-! ## Track.getTrackProgress (src/world/Track.js) -/

namespace Track

/-- The sampling loop of `Track.getTrackProgress`: after processing samples
`0..n`, returns the best parameter `t = i/200` found so far and its squared
distance.  Sample 0 plays the role of the `minDist = Infinity` start (the
first comparison always succeeds). -/
def scan (d : ℕ → ℚ) : ℕ → ℚ × ℚ
  | 0 => (0, d 0)
  | n + 1 =>
    let p := scan d n
    if d (n + 1) < p.2 then (((n : ℚ) + 1) / 200, d (n + 1)) else p

/-- `Track.getTrackProgress(position)`: 201 uniform samples of the curve
(`pointAt` is the oracle for `this.curve.getPointAt`), returning the
parameter of the closest sample, ties broken by lowest `t`. -/
def getTrackProgress (pointAt : ℚ → Vec3) (position : Vec3) : ℚ :=
  (scan (fun i => distSq (pointAt ((i : ℚ) / 200)) position) 200).1

end Track

/-! ## Game (main game file) -/

namespace Game

/-- The checkpoint/lap portion of `Game.updateRaceLogic`'s state: the
two-phase latch `this.checkpointReached` and the lap counter `this.lap`. -/
structure RaceState where
  checkpointReached : Bool
  lap : ℕ
deriving DecidableEq

/-- Whether a position is within 80 world units of a reference point
(`pos.distanceTo(ref) < 80`, expressed on squared distances). -/
def near (pos ref : Vec3) : Bool := decide (distSq pos ref < 6400)

/-- One frame of the checkpoint/lap logic in `Game.updateRaceLogic`: arm the
latch near the halfway point, then — if armed — consume it near the start
line and increment the lap. -/
def raceStep (startLinePos halfwayPos : Vec3) (s : RaceState) (pos : Vec3) :
    RaceState :=
  let s1 :=
    if s.checkpointReached = false ∧ near pos halfwayPos then
      { s with checkpointReached := true }
    else s
  if s1.checkpointReached ∧ near pos startLinePos then
    { checkpointReached := false, lap := s1.lap + 1 }
  else s1

/-- The checkpoint/lap logic over a sequence of frames (one player position
per frame). -/
def raceRun (startLinePos halfwayPos : Vec3) (s : RaceState)
    (l : List Vec3) : RaceState :=
  l.foldl (raceStep startLinePos halfwayPos) s

/-- The body of the rival loop in `Game.updateCollisions` for one rival: on
overlap of the two bounding spheres, first the rival's
`handleCollisionSimple` runs against the player's (current) position, then
the player's `handleCollisionSimple` runs against the rival's already
updated position.  `now` is the `performance.now()` clock read by the
player's debounce. -/
def collideRival (now : ℚ) (player : CarState) (rival : EnemyState)
    (playerRadius rivalRadius : ℚ) :
    CarState × EnemyState × (List CarEvent × List EnemyEvent) :=
  let s := playerRadius + rivalRadius
  if 0 < s ∧ distSq player.pos rival.pos < s ^ 2 then
    let r := EnemyCar.handleCollisionSimple rival player.pos
    let p := Car.handleCollisionSimple now player r.1.pos
    (p.1, r.1, (p.2, r.2))
  else (player, rival, ([], []))

/-- A destructible prop's collision-relevant data (`obj.userData` plus the
`visible` flag). -/
structure DProp where
  hit : Bool
  visible : Bool
  scoreValue : ℚ
deriving DecidableEq

/-- The score awarded by `Game.triggerDestruction`:
`obj.userData.scoreValue || 100` (a falsy stored value falls back to 100). -/
def scoreVal (p : DProp) : ℚ := if p.scoreValue = 0 then 100 else p.scoreValue

/-- The game state read and written by the destructibles loop of
`Game.updateCollisions`. -/
structure DState where
  props : List DProp
  score : ℚ
  playerSpeed : ℚ
deriving DecidableEq

/-- The destructibles loop of `Game.updateCollisions` together with
`Game.triggerDestruction`.  `ov i` is the outcome of the geometric test for
prop `i` this frame (squared-distance pre-filter and bounding-box overlap
against the player); the source iterates indices downward, so the list tail
(higher indices) is processed before the head.  A prop already hit is
skipped (`continue`); a newly overlapping prop is marked hit and hidden, the
player's speed is damped by 0.85, and the prop's score value is awarded. -/
def destrPass (ov : ℕ → Bool) : ℕ → List DProp → ℚ × ℚ → List DProp × (ℚ × ℚ)
  | _, [], acc => ([], acc)
  | i, p :: rest, acc =>
    let r := destrPass ov (i + 1) rest acc
    if p.hit then (p :: r.1, r.2)
    else if ov i then
      ({ p with hit := true, visible := false } :: r.1,
        (r.2.1 * (17/20), r.2.2 + scoreVal p))
    else (p :: r.1, r.2)

/-- One frame of the destructibles loop on the game state. -/
def destrFrame (ov : ℕ → Bool) (st : DState) : DState :=
  let r := destrPass ov 0 st.props (st.playerSpeed, st.score)
  { props := r.1, playerSpeed := r.2.1, score := r.2.2 }

/-- The destructibles loop over a sequence of frames, each with its own
per-prop test outcomes. -/
def destrRun (frames : List (ℕ → Bool)) (st : DState) : DState :=
  frames.foldl (fun s ov => destrFrame ov s) st

/-- The total score value of the props whose hit flag transitioned from
`false` (in `ps`) to `true` (in `qs`), position by position. -/
def transGain : List DProp → List DProp → ℚ
  | p :: ps, q :: qs =>
    (if p.hit = false ∧ q.hit then scoreVal p else 0) + transGain ps qs
  | _, _ => 0

/-- The number of props whose hit flag transitioned from `false` to `true`. -/
def transCount : List DProp → List DProp → ℕ
  | p :: ps, q :: qs =>
    (if p.hit = false ∧ q.hit then 1 else 0) + transCount ps qs
  | _, _ => 0

end Game

/-! ## Derived definitions used by the statements -/

/-- The claimed range of the nitro gauge and cooldown timer. -/
def Car.nitroInv (cfg : CarConfig) (c : CarState) : Prop :=
  0 ≤ c.nitroAmount ∧ c.nitroAmount ≤ cfg.nitroCapacity ∧
  0 ≤ c.nitroCooldown ∧ c.nitroCooldown ≤ cfg.nitroCooldownSec

instance (cfg : CarConfig) (c : CarState) : Decidable (Car.nitroInv cfg c) := by
  unfold Car.nitroInv; infer_instance

namespace Game

/-- The props list after one destructibles pass: a prop already hit is left
alone, a prop whose test succeeds is marked hit and hidden. -/
def markProps (ov : ℕ → Bool) : ℕ → List DProp → List DProp
  | _, [] => []
  | i, p :: rest =>
    (if p.hit then p
      else if ov i then { p with hit := true, visible := false } else p) ::
      markProps ov (i + 1) rest

/-- The score gained in one destructibles pass. -/
def passGain (ov : ℕ → Bool) : ℕ → List DProp → ℚ
  | _, [] => 0
  | i, p :: rest =>
    (if p.hit = false ∧ ov i then scoreVal p else 0) + passGain ov (i + 1) rest

/-- The number of props destroyed in one destructibles pass. -/
def passCount (ov : ℕ → Bool) : ℕ → List DProp → ℕ
  | _, [] => 0
  | i, p :: rest =>
    (if p.hit = false ∧ ov i then 1 else 0) + passCount ov (i + 1) rest

/-- How one prop may evolve over destructibles passes: the hit flag is
monotone and the configured score value never changes. -/
def propEvol (p q : DProp) : Prop := (p.hit → q.hit) ∧ q.scoreValue = p.scoreValue

end Game

/-! ## Concrete states used by closed statements (counterexamples, witnesses) -/

/-- A reachable-looking state at top speed with nitro available: previous
frames held W at full throttle (speed at the ceiling, smoothed throttle 1)
and some nitro was already burned. -/
def clampCexCar : CarState :=
  { freshCar defaultCarConfig with speed := 7/5, accSmoothed := 1, nitroAmount := 50 }

/-- Keys held in the clamp counterexample: W (throttle) and Shift (nitro). -/
def clampCexInput : CarInput := ⟨true, false, false, false, true⟩

/-- Shift only, as a nitro-request input. -/
def shiftInput : CarInput := ⟨false, false, false, false, true⟩

/-- No keys held. -/
def idleInput : CarInput := ⟨false, false, false, false, false⟩

/-- A car that has just drained its nitro: amount 0, cooldown still running. -/
def cooldownCar : CarState :=
  { freshCar defaultCarConfig with nitroAmount := 0, nitroCooldown := 3/4 }

/-- The result of restoring `cooldownCar`'s snapshot onto a freshly
constructed, identically configured car. -/
def restoredCar : CarState := Car.fromJSON (freshCar defaultCarConfig) (Car.toJSON cooldownCar)

/-- An `EnemyCar` configuration at concrete constructor draws. -/
def oneEnemyConfig : EnemyConfig := defaultEnemyConfig (1/3) (1/3)

/-- A rival just after a collision: tiny progress (it spawned near the start
line), speed reversed to `-0.5 × 0.2` by `handleCollisionSimple`, nitro
cooling down. -/
def negProgState : EnemyState :=
  { progress := 1/1000
    speed := -(1/10)
    laneOffset := 0
    targetLaneOffset := 0
    isNitroActive := false
    nitroTimer := 0
    nitroCooldown := 5
    tLane := 1
    pos := (0, 0, 0) }

/-- Concrete random draws (all 1/2, so the 0.002 nitro chance misses). -/
def oneRand : EnemyRand := ⟨1/2, 1/2, 1/2, 1/2⟩

/-- A player at the origin moving at speed 1, with a collision registered at
clock 0 (`_lastCollisionTime = 0`). -/
def cexPlayer : CarState := { freshCar defaultCarConfig with speed := 1 }

/-- A rival overlapping the player: 1 unit away, radii 2 + 2. -/
def cexRival : EnemyState :=
  { progress := 0
    speed := 1/5
    laneOffset := 0
    targetLaneOffset := 0
    isNitroActive := false
    nitroTimer := 0
    nitroCooldown := 4
    tLane := 1
    pos := (1, 0, 0) }


/-- Concrete checkpoint geometry for closed latch statements: the start line
100 units from the quarter-point, both checkpoint radii 80. -/
def startLineW : Vec3 := (100, 0, 0)

/-- The quarter-point ("halfway") checkpoint position. -/
def halfwayW : Vec3 := (0, 0, 0)

/-- A race state with the checkpoint latch armed on lap 0. -/
def latchArmed : Game.RaceState := ⟨true, 0⟩

/-- A rival behind the leader beyond the rubber-band margin, idle and with
its nitro cooldown elapsed. -/
def trailingRival : EnemyState :=
  { progress := 1/10
    speed := 1/5
    laneOffset := 0
    targetLaneOffset := 0
    isNitroActive := false
    nitroTimer := 0
    nitroCooldown := 0
    tLane := 1
    pos := (0, 0, 0) }

/-! ## Theorems -/

/-- C8: for every vehicle (`Car.update` and `EnemyCar.update`) and every
state, a non-positive `dt` makes the update call a no-op: no state field
changes and no event is emitted. -/
theorem update_nonpositive_dt_noop (env : CarEnv) (cfg : CarConfig)
    (c : CarState) (inp : CarInput) (eenv : EnemyEnv) (ecfg : EnemyConfig)
    (e : EnemyState) (pp : Option ℚ) (rnd : EnemyRand) (dt : ℚ)
    (h : dt ≤ 0) :
    Car.update env cfg c inp dt = (c, []) ∧
    EnemyCar.update eenv ecfg e dt pp rnd = (e, []) := by
  constructor
  · rw [Car.update, if_pos h]
  · rw [EnemyCar.update, if_pos h]

/-- Witness for C8 at `dt = 0` on a fresh car and the concrete rival. -/
theorem update_nonpositive_dt_noop_w :
    (0 : ℚ) ≤ 0 ∧
    (Car.update oneCarEnv defaultCarConfig (freshCar defaultCarConfig) idleInput 0 =
        (freshCar defaultCarConfig, []) ∧
      EnemyCar.update oneEnemyEnv oneEnemyConfig negProgState 0 none oneRand =
        (negProgState, [])) :=
  ⟨le_refl 0,
    update_nonpositive_dt_noop oneCarEnv defaultCarConfig (freshCar defaultCarConfig)
      idleInput oneEnemyEnv oneEnemyConfig negProgState none oneRand 0 (le_refl 0)⟩

/-- C10: `fromJSON` on both vehicle types overwrites exactly the fields whose
keys are present (with the expected type) and leaves every other field
unchanged; the empty object (and hence the missing-argument default) changes
nothing. -/
theorem fromJSON_partial_update (c : CarState) (d : Car.CarJSON)
    (e : EnemyState) (de : EnemyCar.EnemyJSON) :
    Car.fromJSON c d =
      { c with
          pos := d.position.getD c.pos
          rotation := d.rotation.getD c.rotation
          speed := d.speed.getD c.speed
          health := d.health.getD c.health
          nitroAmount := d.nitro.getD c.nitroAmount
          progress := d.progress.getD c.progress } ∧
    EnemyCar.fromJSON e de =
      { e with
          progress := de.progress.getD e.progress
          laneOffset := de.laneOffset.getD e.laneOffset
          speed := de.speed.getD e.speed
          isNitroActive := de.isNitroActive.getD e.isNitroActive } ∧
    Car.fromJSON c Car.emptyJSON = c ∧
    EnemyCar.fromJSON e EnemyCar.emptyJSON = e := by
  obtain ⟨p, r, s, h, n, pr⟩ := d
  obtain ⟨ep, el, es, ea⟩ := de
  refine ⟨?_, ?_, rfl, rfl⟩
  · cases p <;> cases r <;> cases s <;> cases h <;> cases n <;> cases pr <;> rfl
  · cases ep <;> cases el <;> cases es <;> cases ea <;> rfl

/-- C9: a rival that is idle with its cooldown elapsed and trails the leader
by more than the 0.05 rubber-band margin activates nitro on that frame
unconditionally — for every random draw. -/
theorem rival_rubberband_nitro (env : EnemyEnv) (cfg : EnemyConfig)
    (e : EnemyState) (dt p : ℚ) (rnd : EnemyRand)
    (hdt : 0 < dt) (hact : e.isNitroActive = false) (hcd : e.nitroCooldown ≤ dt)
    (hmargin : e.progress + 1/20 < p) (hdur : dt < cfg.nitroDuration) :
    (EnemyCar.update env cfg e dt (some p) rnd).1.isNitroActive = true ∧
    EnemyEvent.nitroStart ∈ (EnemyCar.update env cfg e dt (some p) rnd).2 := by
  have h0 : max 0 (e.nitroCooldown - dt) = 0 := max_eq_left (sub_nonpos.mpr hcd)
  have h1 : ¬ (cfg.nitroDuration - dt ≤ 0) := not_le.mpr (sub_pos.mpr hdur)
  rw [EnemyCar.update, if_neg (not_le.mpr hdt)]
  simp only [h0, hact, EnemyCar.requestNitro, hmargin]
  simp [h1]
  split_ifs <;> rfl

/-- Witness for C9: the trailing rival at progress 0.10 versus leader 0.20. -/
theorem rival_rubberband_nitro_w :
    ((0 : ℚ) < 1/60 ∧ trailingRival.isNitroActive = false ∧
      trailingRival.nitroCooldown ≤ 1/60 ∧
      trailingRival.progress + 1/20 < 1/5 ∧ (1/60 : ℚ) < oneEnemyConfig.nitroDuration) ∧
    ((EnemyCar.update oneEnemyEnv oneEnemyConfig trailingRival (1/60) (some (1/5)) oneRand).1.isNitroActive = true ∧
      EnemyEvent.nitroStart ∈
        (EnemyCar.update oneEnemyEnv oneEnemyConfig trailingRival (1/60) (some (1/5)) oneRand).2) :=
  ⟨by refine ⟨by norm_num, rfl, by norm_num [trailingRival], ?_, ?_⟩ <;>
      norm_num [trailingRival, oneEnemyConfig, defaultEnemyConfig],
    rival_rubberband_nitro oneEnemyEnv oneEnemyConfig trailingRival (1/60) (1/5) oneRand
      (by norm_num) rfl (by norm_num [trailingRival])
      (by norm_num [trailingRival])
      (by norm_num [oneEnemyConfig, defaultEnemyConfig])⟩

/-- C2 counterexample: at default configuration, from the reachable state
"top speed, full throttle, nitro draining", the pre-clamp speed exceeds
`maxSpeed` while staying under `maxSpeed × nitroPower`, yet the clamp step
reduces it to `maxSpeed` — the speed is limited by the normal ceiling even
while nitro is draining (the last conjunct shows this call does drain). -/
theorem car_speed_clamp_cex :
    defaultCarConfig.maxSpeed <
      Car.preClampSpeed defaultCarConfig clampCexCar clampCexInput (1/20) ∧
    Car.preClampSpeed defaultCarConfig clampCexCar clampCexInput (1/20) <
      defaultCarConfig.maxSpeed * defaultCarConfig.nitroPower ∧
    Car.speedAfterClamp defaultCarConfig clampCexCar clampCexInput (1/20) =
      defaultCarConfig.maxSpeed ∧
    (Car.update oneCarEnv defaultCarConfig clampCexCar clampCexInput (1/20)).1.nitroAmount <
      clampCexCar.nitroAmount := by
  norm_num [Car.preClampSpeed, Car.speedAfterClamp, Car.clampSpeed, Car.update,
    Car.accelPhase, Car.nitroPhase, Car.useNitro, Car.regenNitro, Car.steerPhase,
    lerp, defaultCarConfig, clampCexCar, clampCexInput, freshCar, oneCarEnv, min_def, max_def]

/-- C2 amended: after the speed-clamp step the forward speed lies in
`[-maxSpeed/2, maxSpeed]` whether or not nitro is draining; the nitro
ceiling `maxSpeed × nitroPower` only caps the boost added in the nitro step,
before the clamp. -/
theorem car_speed_clamp_bounds (cfg : CarConfig) (c : CarState)
    (inp : CarInput) (dt : ℚ) (h : 0 ≤ cfg.maxSpeed) :
    -cfg.maxSpeed / 2 ≤ Car.speedAfterClamp cfg c inp dt ∧
    Car.speedAfterClamp cfg c inp dt ≤ cfg.maxSpeed := by
  unfold Car.speedAfterClamp Car.clampSpeed
  dsimp only
  split_ifs <;> constructor <;> linarith

/-- Witness for C2 amended, at the counterexample's own call. -/
theorem car_speed_clamp_bounds_w :
    (0 : ℚ) ≤ defaultCarConfig.maxSpeed ∧
    (-defaultCarConfig.maxSpeed / 2 ≤
        Car.speedAfterClamp defaultCarConfig clampCexCar clampCexInput (1/20) ∧
      Car.speedAfterClamp defaultCarConfig clampCexCar clampCexInput (1/20) ≤
        defaultCarConfig.maxSpeed) :=
  ⟨by norm_num [defaultCarConfig],
    car_speed_clamp_bounds defaultCarConfig clampCexCar clampCexInput (1/20)
      (by norm_num [defaultCarConfig])⟩


/-- Delivers the nitro-field bounds through `Car._useNitro`. -/
theorem useNitro_inv (cfg : CarConfig) (amount cooldown dt : ℚ)
    (hcap : 0 ≤ cfg.nitroCapacity) (hcd : 0 ≤ cfg.nitroCooldownSec)
    (hdr : 0 ≤ cfg.nitroDrainRate) (hdt : 0 < dt)
    (h1 : 0 ≤ amount) (h2 : amount ≤ cfg.nitroCapacity)
    (h3 : 0 ≤ cooldown) (h4 : cooldown ≤ cfg.nitroCooldownSec) :
    0 ≤ (Car.useNitro cfg amount cooldown dt).1.2.1 ∧
    (Car.useNitro cfg amount cooldown dt).1.2.1 ≤ cfg.nitroCapacity ∧
    0 ≤ (Car.useNitro cfg amount cooldown dt).1.2.2 ∧
    (Car.useNitro cfg amount cooldown dt).1.2.2 ≤ cfg.nitroCooldownSec := by
  have hd : 0 ≤ cfg.nitroDrainRate * dt := mul_nonneg hdr hdt.le
  unfold Car.useNitro
  split_ifs with ha hb <;> dsimp only
  · exact ⟨h1, h2, h3, h4⟩
  · exact ⟨h1, h2, hcd, le_refl _⟩
  · refine ⟨le_max_left 0 _, max_le hcap (by linarith), ?_, ?_⟩ <;>
      split_ifs <;> first | exact hcd | exact le_refl _ | exact h3 | exact h4

/-- Delivers the nitro-field bounds through `Car._regenNitro`. -/
theorem regenNitro_inv (cfg : CarConfig) (amount cooldown dt : ℚ)
    (hcap : 0 ≤ cfg.nitroCapacity) (hcd : 0 ≤ cfg.nitroCooldownSec)
    (hrg : 0 ≤ cfg.nitroRegenRate) (hdt : 0 < dt)
    (h1 : 0 ≤ amount) (h2 : amount ≤ cfg.nitroCapacity)
    (h3 : 0 ≤ cooldown) (h4 : cooldown ≤ cfg.nitroCooldownSec) :
    0 ≤ (Car.regenNitro cfg amount cooldown dt).1 ∧
    (Car.regenNitro cfg amount cooldown dt).1 ≤ cfg.nitroCapacity ∧
    0 ≤ (Car.regenNitro cfg amount cooldown dt).2 ∧
    (Car.regenNitro cfg amount cooldown dt).2 ≤ cfg.nitroCooldownSec := by
  have hr : 0 ≤ cfg.nitroRegenRate * dt := mul_nonneg hrg hdt.le
  unfold Car.regenNitro
  split_ifs with ha <;> dsimp only
  · exact ⟨h1, h2, le_max_left 0 _, max_le hcd (by linarith)⟩
  · exact ⟨le_min hcap (by linarith), min_le_left _ _, h3, h4⟩

theorem nitroPhase_inv (cfg : CarConfig) (speed amount cooldown dt : ℚ) (shiftKey : Bool)
    (hcap : 0 ≤ cfg.nitroCapacity) (hcd : 0 ≤ cfg.nitroCooldownSec)
    (hdr : 0 ≤ cfg.nitroDrainRate) (hrg : 0 ≤ cfg.nitroRegenRate)
    (hdt : 0 < dt)
    (h1 : 0 ≤ amount) (h2 : amount ≤ cfg.nitroCapacity)
    (h3 : 0 ≤ cooldown) (h4 : cooldown ≤ cfg.nitroCooldownSec) :
    0 ≤ (Car.nitroPhase cfg speed amount cooldown shiftKey dt).1.2.1 ∧
    (Car.nitroPhase cfg speed amount cooldown shiftKey dt).1.2.1 ≤ cfg.nitroCapacity ∧
    0 ≤ (Car.nitroPhase cfg speed amount cooldown shiftKey dt).1.2.2 ∧
    (Car.nitroPhase cfg speed amount cooldown shiftKey dt).1.2.2 ≤ cfg.nitroCooldownSec := by
  unfold Car.nitroPhase
  split_ifs with ha <;> dsimp only
  · exact useNitro_inv cfg amount cooldown dt hcap hcd hdr hdt h1 h2 h3 h4
  · exact regenNitro_inv cfg amount cooldown dt hcap hcd hrg hdt h1 h2 h3 h4

theorem update_nitro_eq (env : CarEnv) (cfg : CarConfig) (c : CarState)
    (inp : CarInput) (dt : ℚ) (h : ¬ dt ≤ 0) :
    (Car.update env cfg c inp dt).1.nitroAmount =
      (Car.nitroPhase cfg (Car.accelPhase cfg c.accSmoothed c.speed inp.w inp.s dt).2
        c.nitroAmount c.nitroCooldown inp.shift dt).1.2.1 ∧
    (Car.update env cfg c inp dt).1.nitroCooldown =
      (Car.nitroPhase cfg (Car.accelPhase cfg c.accSmoothed c.speed inp.w inp.s dt).2
        c.nitroAmount c.nitroCooldown inp.shift dt).1.2.2 := by
  rw [Car.update, if_neg h]
  exact ⟨rfl, rfl⟩

theorem update_nitroInv (env : CarEnv) (cfg : CarConfig)
    (hcap : 0 ≤ cfg.nitroCapacity) (hcd : 0 ≤ cfg.nitroCooldownSec)
    (hdr : 0 ≤ cfg.nitroDrainRate) (hrg : 0 ≤ cfg.nitroRegenRate)
    (c : CarState) (inp : CarInput) (dt : ℚ) (hc : Car.nitroInv cfg c) :
    Car.nitroInv cfg (Car.update env cfg c inp dt).1 := by
  rcases le_or_lt dt 0 with h | h
  · rw [Car.update, if_pos h]; exact hc
  · obtain ⟨e1, e2⟩ := update_nitro_eq env cfg c inp dt (not_le.mpr h)
    obtain ⟨i1, i2, i3, i4⟩ := hc
    obtain ⟨j1, j2, j3, j4⟩ :=
      nitroPhase_inv cfg (Car.accelPhase cfg c.accSmoothed c.speed inp.w inp.s dt).2
        c.nitroAmount c.nitroCooldown dt inp.shift hcap hcd hdr hrg h i1 i2 i3 i4
    exact ⟨e1 ▸ j1, e1 ▸ j2, e2 ▸ j3, e2 ▸ j4⟩

theorem runUpdates_nitroInv (env : CarEnv) (cfg : CarConfig)
    (hcap : 0 ≤ cfg.nitroCapacity) (hcd : 0 ≤ cfg.nitroCooldownSec)
    (hdr : 0 ≤ cfg.nitroDrainRate) (hrg : 0 ≤ cfg.nitroRegenRate)
    (c : CarState) (hc : Car.nitroInv cfg c) (l : List (CarInput × ℚ)) :
    Car.nitroInv cfg (Car.runUpdates env cfg c l) := by
  induction l generalizing c with
  | nil => exact hc
  | cons hd tl ih =>
    exact ih _ (update_nitroInv env cfg hcap hcd hdr hrg c hd.1 hd.2 hc)

theorem car_nitro_invariant (env : CarEnv) (cfg : CarConfig)
    (hcap : 0 ≤ cfg.nitroCapacity) (hcd : 0 ≤ cfg.nitroCooldownSec)
    (hdr : 0 ≤ cfg.nitroDrainRate) (hrg : 0 ≤ cfg.nitroRegenRate)
    (l : List (CarInput × ℚ)) :
    Car.nitroInv cfg (Car.runUpdates env cfg (freshCar cfg) l) :=
  runUpdates_nitroInv env cfg hcap hcd hdr hrg (freshCar cfg)
    ⟨hcap, le_refl _, le_refl 0, hcd⟩ l

theorem car_nitro_invariant_w :
    ((0 : ℚ) ≤ defaultCarConfig.nitroCapacity ∧
      (0 : ℚ) ≤ defaultCarConfig.nitroCooldownSec ∧
      (0 : ℚ) ≤ defaultCarConfig.nitroDrainRate ∧
      (0 : ℚ) ≤ defaultCarConfig.nitroRegenRate) ∧
    Car.nitroInv defaultCarConfig
      (Car.runUpdates oneCarEnv defaultCarConfig (freshCar defaultCarConfig)
        [(shiftInput, 1/10), (idleInput, 0)]) :=
  ⟨by norm_num [defaultCarConfig],
    car_nitro_invariant oneCarEnv defaultCarConfig
      (by norm_num [defaultCarConfig]) (by norm_num [defaultCarConfig])
      (by norm_num [defaultCarConfig]) (by norm_num [defaultCarConfig])
      [(shiftInput, 1/10), (idleInput, 0)]⟩

/-- Convexity of `lerp`: nonnegative endpoints and a weight in `[0,1]` give
a nonnegative value. -/
theorem lerp_nonneg' {a b t : ℚ} (ha : 0 ≤ a) (hb : 0 ≤ b) (h0 : 0 ≤ t) (h1 : t ≤ 1) :
    0 ≤ lerp a b t := by
  unfold lerp; nlinarith

/-- A value strictly between -1 and 0 is its own JavaScript `% 1` remainder. -/
theorem jsRem_eq_self_of_neg {q : ℚ} (h0 : -1 < q) (h1 : q < 0) : jsRem q = q := by
  have h3 : (-1 : ℤ) < ⌈q⌉ := by
    rw [Int.lt_ceil]; exact_mod_cast h0
  have h2 : ⌈q⌉ ≤ 0 := Int.ceil_le.mpr (by exact_mod_cast h1.le)
  have hc : ⌈q⌉ = 0 := by omega
  simp [jsRem, jsTrunc, not_le.mpr h1, hc]

/-- With a positive `dt`, `EnemyCar.update` sets progress to the `%= 1`
wraparound of the advanced progress (the later lane/pose steps leave it
alone), advanced by the updated speed. -/
theorem enemy_update_progress_eq (env : EnemyEnv) (cfg : EnemyConfig)
    (e : EnemyState) (dt : ℚ) (pp : Option ℚ) (rnd : EnemyRand) (h : ¬ dt ≤ 0) :
    (EnemyCar.update env cfg e dt pp rnd).1.progress =
      jsRem (e.progress + (EnemyCar.update env cfg e dt pp rnd).1.speed * dt) := by
  rw [EnemyCar.update, if_neg h]
  unfold EnemyCar.requestNitro
  dsimp only
  split_ifs <;> rfl

/-- The speed an `EnemyCar.update` call settles on is one of the two lerp
targets (boosted or base). -/
theorem enemy_update_speed_eq (env : EnemyEnv) (cfg : EnemyConfig)
    (e : EnemyState) (dt : ℚ) (pp : Option ℚ) (rnd : EnemyRand) (h : ¬ dt ≤ 0) :
    (EnemyCar.update env cfg e dt pp rnd).1.speed =
      lerp e.speed (cfg.baseSpeed * cfg.nitroMultiplier) (min 1 (dt * 6)) ∨
    (EnemyCar.update env cfg e dt pp rnd).1.speed =
      lerp e.speed cfg.baseSpeed (dt * (1/2)) := by
  rw [EnemyCar.update, if_neg h]
  unfold EnemyCar.requestNitro
  dsimp only
  split_ifs <;> first | exact Or.inl rfl | exact Or.inr rfl

/-- The running minimum of the sampling loop never exceeds the distance of
sample 0. -/
theorem track_scan_snd_le (d : ℕ → ℚ) (n : ℕ) : (Track.scan d n).2 ≤ d 0 := by
  induction n with
  | zero => exact le_refl _
  | succ n ih =>
    rw [Track.scan]
    split_ifs with h
    · exact (le_of_lt h).trans ih
    · exact ih

/-- The best parameter after samples `0..n` lies in `[0, n/200]`. -/
theorem track_scan_fst_bounds (d : ℕ → ℚ) (n : ℕ) :
    0 ≤ (Track.scan d n).1 ∧ (Track.scan d n).1 ≤ (n : ℚ) / 200 := by
  induction n with
  | zero => constructor <;> simp [Track.scan]
  | succ n ih =>
    rw [Track.scan]
    split_ifs with h
    · constructor
      · positivity
      · rw [Nat.cast_succ]
    · refine ⟨ih.1, ih.2.trans ?_⟩
      rw [Nat.cast_succ]
      linarith

/-- On a loop-closed curve (`pointAt 1 = pointAt 0`), `getTrackProgress`
returns a value in `[0,1)`: sample 200 ties sample 0 and the strict
comparison keeps the earlier parameter. -/
theorem track_progress_bounds (pointAt : ℚ → Vec3) (pos : Vec3)
    (hc : pointAt 1 = pointAt 0) :
    0 ≤ Track.getTrackProgress pointAt pos ∧ Track.getTrackProgress pointAt pos < 1 := by
  unfold Track.getTrackProgress
  set d : ℕ → ℚ := fun i => distSq (pointAt ((i : ℚ) / 200)) pos with hd
  have h200 : d 200 = d 0 := by
    rw [hd]
    norm_num
    rw [hc]
  rw [show (200 : ℕ) = 199 + 1 from rfl, Track.scan]
  rw [if_neg (not_lt.mpr (h200 ▸ track_scan_snd_le d 199))]
  obtain ⟨hl, hr⟩ := track_scan_fst_bounds d 199
  exact ⟨hl, lt_of_le_of_lt hr (by norm_num)⟩

/-- C3 amended: `EnemyCar.update` keeps progress in `(-1,1)` for every
positive `dt` (the JavaScript `%` keeps the dividend's sign, so negative
post-collision speeds can push it slightly below 0); it stays in `[0,1)`
whenever the prior progress is in `[0,1)`, the speed is nonnegative, and
`dt ≤ 2` — the bound is needed because the non-nitro branch
`lerp(speed, baseSpeed, dt * 0.5)` is unclamped and can overshoot past the
base speed into negative values for `dt > 2` (the main loop clamps frame
`dt` to 0.05, far inside the bound); and `Track.getTrackProgress` always
returns a value in `[0,1)` on the closed curve. -/
theorem progress_range_amended :
    (∀ (env : EnemyEnv) (cfg : EnemyConfig) (e : EnemyState) (dt : ℚ)
        (pp : Option ℚ) (rnd : EnemyRand), 0 < dt →
        -1 < (EnemyCar.update env cfg e dt pp rnd).1.progress ∧
        (EnemyCar.update env cfg e dt pp rnd).1.progress < 1) ∧
    (∀ (env : EnemyEnv) (cfg : EnemyConfig) (e : EnemyState) (dt : ℚ)
        (pp : Option ℚ) (rnd : EnemyRand),
        0 < dt → dt ≤ 2 → 0 ≤ e.speed → 0 ≤ cfg.baseSpeed → 0 ≤ cfg.nitroMultiplier →
        0 ≤ e.progress →
        0 ≤ (EnemyCar.update env cfg e dt pp rnd).1.progress ∧
        (EnemyCar.update env cfg e dt pp rnd).1.progress < 1) ∧
    (∀ (pointAt : ℚ → Vec3) (pos : Vec3), pointAt 1 = pointAt 0 →
        0 ≤ Track.getTrackProgress pointAt pos ∧ Track.getTrackProgress pointAt pos < 1) := by
  refine ⟨?_, ?_, track_progress_bounds⟩
  · intro env cfg e dt pp rnd hdt
    rw [enemy_update_progress_eq env cfg e dt pp rnd (not_le.mpr hdt)]
    exact ⟨neg_one_lt_jsRem _, jsRem_lt_one' _⟩
  · intro env cfg e dt pp rnd hdt hdt2 hsp hbase hmult hprog
    rw [enemy_update_progress_eq env cfg e dt pp rnd (not_le.mpr hdt)]
    have hs : 0 ≤ (EnemyCar.update env cfg e dt pp rnd).1.speed := by
      rcases enemy_update_speed_eq env cfg e dt pp rnd (not_le.mpr hdt) with h | h <;> rw [h]
      · exact lerp_nonneg' hsp (mul_nonneg hbase hmult)
          (le_min (by norm_num) (by positivity)) (min_le_left _ _)
      · exact lerp_nonneg' hsp hbase (by linarith) (by linarith)
    have harg : 0 ≤ e.progress + (EnemyCar.update env cfg e dt pp rnd).1.speed * dt := by
      have := mul_nonneg hs hdt.le
      linarith
    exact ⟨jsRem_nonneg harg, jsRem_lt_one harg⟩

/-- C3 counterexample: a rival that spawned just past the start line
(progress 0.001) and had its speed reversed by a collision (speed -0.1,
cooldown still running so no nitro interferes) leaves `update` with a
negative progress: 0.001 - 0.0925·0.05 = -29/8000, and `%= 1` keeps the
sign. -/
theorem enemy_progress_cex :
    (EnemyCar.update oneEnemyEnv oneEnemyConfig negProgState (1/20) none oneRand).1.progress < 0 := by
  have hj : jsRem (-(29/8000) : ℚ) = -(29/8000) :=
    jsRem_eq_self_of_neg (by norm_num) (by norm_num)
  norm_num [EnemyCar.update, EnemyCar.requestNitro, lerp, oneEnemyConfig,
    defaultEnemyConfig, negProgState, oneRand, oneEnemyEnv, min_def, max_def, hj]

/-- A race-logic frame that increments the lap leaves the checkpoint latch
consumed (false). -/
theorem raceStep_latch_false_of_inc (startLinePos halfwayPos : Vec3)
    (s : Game.RaceState) (pos : Vec3)
    (h : (Game.raceStep startLinePos halfwayPos s pos).lap ≠ s.lap) :
    (Game.raceStep startLinePos halfwayPos s pos).checkpointReached = false := by
  unfold Game.raceStep at h ⊢
  rcases hc : s.checkpointReached <;> rcases hh : Game.near pos halfwayPos <;>
    rcases hst : Game.near pos startLinePos <;> simp_all

/-- With the latch down and the player away from the quarter-point, a
race-logic frame changes nothing. -/
theorem raceStep_fixed (startLinePos halfwayPos : Vec3) (s : Game.RaceState)
    (pos : Vec3) (hs : s.checkpointReached = false)
    (hp : Game.near pos halfwayPos = false) :
    Game.raceStep startLinePos halfwayPos s pos = s := by
  unfold Game.raceStep
  rcases hst : Game.near pos startLinePos <;> simp [hs, hp, hst]

/-- With the latch down, a whole run of frames away from the quarter-point
changes nothing. -/
theorem raceRun_fixed (startLinePos halfwayPos : Vec3) (s : Game.RaceState)
    (hs : s.checkpointReached = false) (l : List Vec3)
    (hl : ∀ p ∈ l, Game.near p halfwayPos = false) :
    Game.raceRun startLinePos halfwayPos s l = s := by
  induction l with
  | nil => rfl
  | cons hd tl ih =>
    have hstep := raceStep_fixed startLinePos halfwayPos s hd hs (hl hd (by simp))
    show Game.raceRun startLinePos halfwayPos (Game.raceStep startLinePos halfwayPos s hd) tl = s
    rw [hstep]
    exact ih fun p hp => hl p (by simp [hp])

/-- C4: two lap increments always have a frame at or before the second one
(and after the first) in which the player was within the checkpoint radius
of the track's quarter-point: the increment consumes the latch and only
proximity to the quarter-point re-arms it. -/
theorem lap_latch_no_double (startLinePos halfwayPos : Vec3)
    (s : Game.RaceState) (p0 : Vec3) (l : List Vec3) (p1 : Vec3)
    (hinc0 : (Game.raceStep startLinePos halfwayPos s p0).lap ≠ s.lap)
    (hinc1 :
      (Game.raceStep startLinePos halfwayPos
          (Game.raceRun startLinePos halfwayPos
            (Game.raceStep startLinePos halfwayPos s p0) l) p1).lap ≠
        (Game.raceRun startLinePos halfwayPos
          (Game.raceStep startLinePos halfwayPos s p0) l).lap) :
    ∃ p ∈ l ++ [p1], Game.near p halfwayPos = true := by
  by_contra hno
  push_neg at hno
  have hno' : ∀ p ∈ l ++ [p1], Game.near p halfwayPos = false := by
    intro p hp
    cases hnear : Game.near p halfwayPos
    · rfl
    · exact absurd hnear (hno p hp)
  have h0 : (Game.raceStep startLinePos halfwayPos s p0).checkpointReached = false :=
    raceStep_latch_false_of_inc startLinePos halfwayPos s p0 hinc0
  have hrun : Game.raceRun startLinePos halfwayPos
      (Game.raceStep startLinePos halfwayPos s p0) l =
      Game.raceStep startLinePos halfwayPos s p0 :=
    raceRun_fixed startLinePos halfwayPos _ h0 l
      fun p hp => hno' p (by simp [hp])
  rw [hrun] at hinc1
  have hfix := raceStep_fixed startLinePos halfwayPos
    (Game.raceStep startLinePos halfwayPos s p0) p1 h0
    (hno' p1 (by simp))
  rw [hfix] at hinc1
  exact hinc1 rfl

/-- Frame 1 of the C4 witness scenario increments the lap. -/
theorem latch_w1 :
    (Game.raceStep startLineW halfwayW latchArmed startLineW).lap ≠ latchArmed.lap := by
  norm_num [Game.raceStep, Game.near, distSq, startLineW, halfwayW, latchArmed]

/-- After re-arming at the quarter-point, the next start-line frame
increments again. -/
theorem latch_w2 :
    (Game.raceStep startLineW halfwayW
        (Game.raceRun startLineW halfwayW
          (Game.raceStep startLineW halfwayW latchArmed startLineW) [halfwayW]) startLineW).lap ≠
      (Game.raceRun startLineW halfwayW
        (Game.raceStep startLineW halfwayW latchArmed startLineW) [halfwayW]).lap := by
  norm_num [Game.raceRun, Game.raceStep, Game.near, distSq, startLineW, halfwayW, latchArmed,
    List.foldl]

/-- Witness for C4: both increments happen and the conclusion names the
re-arming frame. -/
theorem lap_latch_no_double_w :
    ((Game.raceStep startLineW halfwayW latchArmed startLineW).lap ≠ latchArmed.lap ∧
      (Game.raceStep startLineW halfwayW
          (Game.raceRun startLineW halfwayW
            (Game.raceStep startLineW halfwayW latchArmed startLineW) [halfwayW]) startLineW).lap ≠
        (Game.raceRun startLineW halfwayW
          (Game.raceStep startLineW halfwayW latchArmed startLineW) [halfwayW]).lap) ∧
    ∃ p ∈ [halfwayW] ++ [startLineW], Game.near p halfwayW = true :=
  ⟨⟨latch_w1, latch_w2⟩,
    lap_latch_no_double startLineW halfwayW latchArmed startLineW [halfwayW] startLineW
      latch_w1 latch_w2⟩

/-- C5 counterexample: restoring the snapshot of a car whose nitro just
emptied (cooldown 0.75 s, unserialized) onto a fresh car reproduces every
serialized field, yet one identical update call later the two cars already
disagree on `nitroAmount` — the original is still in cooldown, the restored
car regenerates. -/
theorem car_roundtrip_cex :
    Car.toJSON restoredCar = Car.toJSON cooldownCar ∧
    (Car.update oneCarEnv defaultCarConfig restoredCar shiftInput (1/10)).1.nitroAmount ≠
      (Car.update oneCarEnv defaultCarConfig cooldownCar shiftInput (1/10)).1.nitroAmount := by
  constructor
  · rfl
  · norm_num [Car.update, Car.accelPhase, Car.nitroPhase, Car.useNitro, Car.regenNitro,
      Car.steerPhase, Car.toJSON, Car.fromJSON, lerp, defaultCarConfig, cooldownCar,
      restoredCar, shiftInput, freshCar, oneCarEnv, min_def, max_def]

/-- C5 amended: the `toJSON`/`fromJSON` round trip onto a fresh car always
reproduces the six listed fields, and reproduces the whole state (hence all
subsequent behavior) exactly when the original's unserialized dynamic fields
(nitro cooldown, smoothed throttle, drift factor, invulnerability, collision
clock, camera shake) equal the fresh-construction defaults. -/
theorem car_roundtrip_amended (cfg : CarConfig) (c : CarState) :
    Car.toJSON (Car.fromJSON (freshCar cfg) (Car.toJSON c)) = Car.toJSON c ∧
    (c.nitroCooldown = 0 → c.accSmoothed = 0 → c.driftFactor = 0 →
      c.invulnerable = false → c.lastCollisionTime = 0 → c.cameraShake = 0 →
      Car.fromJSON (freshCar cfg) (Car.toJSON c) = c) := by
  obtain ⟨pos, rot, sp, df, acc, he, inv, na, nc, pr, lc, cs⟩ := c
  constructor
  · rfl
  · intro h1 h2 h3 h4 h5 h6
    simp_all [Car.fromJSON, Car.toJSON, freshCar]

/-- C6 counterexample: with the two bounding spheres overlapping (distance 1
against radii 2 + 2), the frame moves the rival but — the player's 100 ms
collision debounce still running — leaves the player completely untouched:
no position correction and no damage, so the resolution is not symmetric. -/
theorem vehicle_collision_symmetry_cex :
    distSq cexPlayer.pos cexRival.pos < ((2 : ℚ) + 2) ^ 2 ∧
    (Game.collideRival 50 cexPlayer cexRival 2 2).2.1.pos ≠ cexRival.pos ∧
    (Game.collideRival 50 cexPlayer cexRival 2 2).1 = cexPlayer := by
  refine ⟨by norm_num [cexPlayer, cexRival, distSq, freshCar], ?_, ?_⟩
  · norm_num [Game.collideRival, EnemyCar.handleCollisionSimple, Car.handleCollisionSimple,
      Car.handleCollisionWithObject, normalizeQ, ratSqrt, vsub, vadd, vscale, distSq,
      cexPlayer, cexRival, freshCar, defaultCarConfig]
  · norm_num [Game.collideRival, EnemyCar.handleCollisionSimple, Car.handleCollisionSimple,
      Car.handleCollisionWithObject, normalizeQ, ratSqrt, vsub, vadd, vscale, distSq,
      cexPlayer, cexRival, freshCar, defaultCarConfig]

/-- C6 amended: on overlap the rival is always pushed 0.8 units along the
unit vector from the player toward itself and has its speed reflected
(rivals carry no health, so they never take damage); the player receives its
push (against the rival's already-updated position) and damage only when its
100 ms debounce has elapsed and it is not invulnerable. -/
theorem vehicle_collision_resolution (now : ℚ) (p : CarState) (r : EnemyState)
    (pr rr : ℚ)
    (hov : 0 < pr + rr ∧ distSq p.pos r.pos < (pr + rr) ^ 2)
    (hdb : 100 ≤ now - p.lastCollisionTime)
    (hinv : p.invulnerable = false)
    (hhp : 0 < p.health) (hsp : p.speed ≠ 0) :
    (Game.collideRival now p r pr rr).2.1.pos =
      vadd r.pos (vscale (4/5) (normalizeQ (vsub r.pos p.pos))) ∧
    (Game.collideRival now p r pr rr).2.1.speed = r.speed * (-(1/2)) ∧
    (Game.collideRival now p r pr rr).1.pos =
      vadd p.pos (vscale (4/5)
        (normalizeQ (vsub p.pos (Game.collideRival now p r pr rr).2.1.pos))) ∧
    (Game.collideRival now p r pr rr).1.health < p.health := by
  have habs : 0 < |p.speed| := abs_pos.mpr hsp
  rw [Game.collideRival, if_pos hov]
  unfold Car.handleCollisionSimple Car.handleCollisionWithObject Car.applyDamage
    EnemyCar.handleCollisionSimple
  dsimp only
  rw [if_neg (not_lt.mpr hdb)]
  simp only [hinv, Bool.false_eq_true, if_false]
  split_ifs with hdes
  · refine ⟨trivial, trivial, by norm_num, ?_⟩
    simpa using hhp
  · refine ⟨trivial, trivial, by norm_num, ?_⟩
    dsimp only
    nlinarith [abs_nonneg p.speed]

/-- Witness for C6 amended at an elapsed debounce clock. -/
theorem vehicle_collision_resolution_w :
    ((0 : ℚ) < 2 + 2 ∧ distSq cexPlayer.pos cexRival.pos < ((2 : ℚ) + 2) ^ 2) ∧
    (100 : ℚ) ≤ 200 - cexPlayer.lastCollisionTime ∧
    cexPlayer.invulnerable = false ∧ (0 : ℚ) < cexPlayer.health ∧ cexPlayer.speed ≠ 0 ∧
    ((Game.collideRival 200 cexPlayer cexRival 2 2).2.1.pos =
        vadd cexRival.pos (vscale (4/5) (normalizeQ (vsub cexRival.pos cexPlayer.pos))) ∧
      (Game.collideRival 200 cexPlayer cexRival 2 2).2.1.speed = cexRival.speed * (-(1/2)) ∧
      (Game.collideRival 200 cexPlayer cexRival 2 2).1.pos =
        vadd cexPlayer.pos (vscale (4/5)
          (normalizeQ (vsub cexPlayer.pos (Game.collideRival 200 cexPlayer cexRival 2 2).2.1.pos))) ∧
      (Game.collideRival 200 cexPlayer cexRival 2 2).1.health < cexPlayer.health) :=
  ⟨⟨by norm_num, by norm_num [cexPlayer, cexRival, distSq, freshCar]⟩,
    by norm_num [cexPlayer, freshCar],
    rfl,
    by norm_num [cexPlayer, freshCar],
    by norm_num [cexPlayer, freshCar],
    vehicle_collision_resolution 200 cexPlayer cexRival 2 2
      ⟨by norm_num, by norm_num [cexPlayer, cexRival, distSq, freshCar]⟩
      (by norm_num [cexPlayer, freshCar]) rfl
      (by norm_num [cexPlayer, freshCar]) (by norm_num [cexPlayer, freshCar])⟩

/-- Closed form of one destructibles pass: the marked props, the speed
damped once per newly destroyed prop, and the score raised by the pass
gain. -/
theorem destrPass_eq (ov : ℕ → Bool) (ps : List Game.DProp) (i : ℕ) (sp sc : ℚ) :
    Game.destrPass ov i ps (sp, sc) =
      (Game.markProps ov i ps,
        (sp * (17/20) ^ Game.passCount ov i ps, sc + Game.passGain ov i ps)) := by
  induction ps generalizing i sp sc with
  | nil => simp [Game.destrPass, Game.markProps, Game.passCount, Game.passGain]
  | cons p rest ih =>
    rw [Game.destrPass, Game.markProps, Game.passCount, Game.passGain, ih]
    by_cases hp : p.hit
    · simp [hp]
    · by_cases ho : ov i
      · simp [hp, ho, pow_succ]
        ring_nf
        constructor <;> ring_nf
      · simp [hp, ho]

/-- A prop evolves to itself. -/
theorem propEvol_refl (p : Game.DProp) : Game.propEvol p p := ⟨id, rfl⟩

/-- One pass is a legal evolution of every prop. -/
theorem markProps_evol (ov : ℕ → Bool) (ps : List Game.DProp) (i : ℕ) :
    List.Forall₂ Game.propEvol ps (Game.markProps ov i ps) := by
  induction ps generalizing i with
  | nil => exact List.Forall₂.nil
  | cons p rest ih =>
    rw [Game.markProps]
    refine List.Forall₂.cons ?_ (ih (i + 1))
    by_cases hp : p.hit
    · simp [hp, propEvol_refl]
    · by_cases ho : ov i
      · simp [hp, ho, Game.propEvol]
      · simp [hp, ho, propEvol_refl]

/-- Prop evolution composes across passes. -/
theorem propEvol_trans_f2 {a b c : List Game.DProp}
    (hab : List.Forall₂ Game.propEvol a b) (hbc : List.Forall₂ Game.propEvol b c) :
    List.Forall₂ Game.propEvol a c := by
  induction hab generalizing c with
  | nil => cases hbc; exact List.Forall₂.nil
  | cons h t ih =>
    cases hbc with
    | cons h2 t2 =>
      exact List.Forall₂.cons ⟨fun hh => h2.1 (h.1 hh), h2.2.trans h.2⟩ (ih t2)

/-- Pointwise splitting of the transition gain across an intermediate
state. -/
theorem transGain_step (a b c : Game.DProp)
    (hab : Game.propEvol a b) (hbc : Game.propEvol b c) :
    (if a.hit = false ∧ c.hit then Game.scoreVal a else 0) =
      (if a.hit = false ∧ b.hit then Game.scoreVal a else 0) +
      (if b.hit = false ∧ c.hit then Game.scoreVal b else 0) := by
  obtain ⟨h1, h2⟩ := hab; obtain ⟨h3, h4⟩ := hbc
  have hv : Game.scoreVal b = Game.scoreVal a := by simp [Game.scoreVal, h2]
  rcases ha : a.hit <;> rcases hb : b.hit <;> rcases hc : c.hit <;> simp_all

/-- Pointwise splitting of the transition count across an intermediate
state. -/
theorem transCount_step (a b c : Game.DProp)
    (hab : Game.propEvol a b) (hbc : Game.propEvol b c) :
    (if a.hit = false ∧ c.hit then 1 else 0) =
      (if a.hit = false ∧ b.hit then 1 else 0) +
      (if b.hit = false ∧ c.hit then 1 else 0) := by
  obtain ⟨h1, h2⟩ := hab; obtain ⟨h3, h4⟩ := hbc
  rcases ha : a.hit <;> rcases hb : b.hit <;> rcases hc : c.hit <;> simp_all

/-- The transition gain over a composite evolution is the sum of the
stages' gains. -/
theorem transGain_comp {a b c : List Game.DProp}
    (hab : List.Forall₂ Game.propEvol a b) (hbc : List.Forall₂ Game.propEvol b c) :
    Game.transGain a c = Game.transGain a b + Game.transGain b c := by
  induction hab generalizing c with
  | nil => cases hbc; simp [Game.transGain]
  | cons h t ih =>
    cases hbc with
    | cons h2 t2 =>
      rw [Game.transGain, Game.transGain, Game.transGain, ih t2,
        transGain_step _ _ _ h h2]
      ring

/-- The transition count over a composite evolution is the sum of the
stages' counts. -/
theorem transCount_comp {a b c : List Game.DProp}
    (hab : List.Forall₂ Game.propEvol a b) (hbc : List.Forall₂ Game.propEvol b c) :
    Game.transCount a c = Game.transCount a b + Game.transCount b c := by
  induction hab generalizing c with
  | nil => cases hbc; simp [Game.transCount]
  | cons h t ih =>
    cases hbc with
    | cons h2 t2 =>
      rw [Game.transCount, Game.transCount, Game.transCount, ih t2,
        transCount_step _ _ _ h h2]
      omega

/-- The gain of one pass is exactly the score of its fresh transitions. -/
theorem transGain_markProps (ov : ℕ → Bool) (ps : List Game.DProp) (i : ℕ) :
    Game.transGain ps (Game.markProps ov i ps) = Game.passGain ov i ps := by
  induction ps generalizing i with
  | nil => rfl
  | cons p rest ih =>
    rw [Game.markProps, Game.transGain, Game.passGain, ih]
    by_cases hp : p.hit
    · simp [hp]
    · by_cases ho : ov i <;> simp [hp, ho]

/-- The count of one pass is exactly its fresh transitions. -/
theorem transCount_markProps (ov : ℕ → Bool) (ps : List Game.DProp) (i : ℕ) :
    Game.transCount ps (Game.markProps ov i ps) = Game.passCount ov i ps := by
  induction ps generalizing i with
  | nil => rfl
  | cons p rest ih =>
    rw [Game.markProps, Game.transCount, Game.passCount, ih]
    by_cases hp : p.hit
    · simp [hp]
    · by_cases ho : ov i <;> simp [hp, ho]

/-- No evolution, no gain. -/
theorem transGain_self (l : List Game.DProp) : Game.transGain l l = 0 := by
  induction l with
  | nil => rfl
  | cons p rest ih => rw [Game.transGain, ih]; simp

/-- No evolution, no transitions. -/
theorem transCount_self (l : List Game.DProp) : Game.transCount l l = 0 := by
  induction l with
  | nil => rfl
  | cons p rest ih => rw [Game.transCount, ih]; simp

/-- The destructibles frame in closed form. -/
theorem destrFrame_eq (ov : ℕ → Bool) (st : Game.DState) :
    Game.destrFrame ov st =
      { props := Game.markProps ov 0 st.props
        score := st.score + Game.passGain ov 0 st.props
        playerSpeed := st.playerSpeed * (17/20) ^ Game.passCount ov 0 st.props } := by
  unfold Game.destrFrame
  rw [destrPass_eq]

/-- C7: over any sequence of frames, each destructible prop's hit flag is
monotone (so it transitions false to true at most once) and its score value
never changes; the final score is the initial score plus each transitioned
prop's configured value counted exactly once; and the player's speed is
damped by 0.85 exactly once per transitioned prop. -/
theorem destructible_one_shot (frames : List (ℕ → Bool)) (st : Game.DState) :
    List.Forall₂ Game.propEvol st.props (Game.destrRun frames st).props ∧
    (Game.destrRun frames st).score =
      st.score + Game.transGain st.props (Game.destrRun frames st).props ∧
    (Game.destrRun frames st).playerSpeed =
      st.playerSpeed * (17/20) ^ Game.transCount st.props (Game.destrRun frames st).props := by
  induction frames generalizing st with
  | nil =>
    refine ⟨List.forall₂_same.mpr fun p _ => propEvol_refl p, ?_, ?_⟩
    · rw [show Game.destrRun [] st = st from rfl, transGain_self]; ring
    · rw [show Game.destrRun [] st = st from rfl, transCount_self]; ring
  | cons f fs ih =>
    have hrun : Game.destrRun (f :: fs) st = Game.destrRun fs (Game.destrFrame f st) := rfl
    obtain ⟨hF, hS, hP⟩ := ih (Game.destrFrame f st)
    have hfp : (Game.destrFrame f st).props = Game.markProps f 0 st.props := by
      rw [destrFrame_eq]
    have hev1 : List.Forall₂ Game.propEvol st.props (Game.destrFrame f st).props := by
      rw [hfp]; exact markProps_evol f st.props 0
    have hev2 := propEvol_trans_f2 hev1 hF
    refine ⟨by rw [hrun]; exact hev2, ?_, ?_⟩
    · rw [hrun, hS, transGain_comp hev1 hF]
      have : Game.transGain st.props (Game.destrFrame f st).props =
          Game.passGain f 0 st.props := by
        rw [hfp]; exact transGain_markProps f st.props 0
      rw [this, destrFrame_eq]
      ring
    · rw [hrun, hP, transCount_comp hev1 hF]
      have : Game.transCount st.props (Game.destrFrame f st).props =
          Game.passCount f 0 st.props := by
        rw [hfp]; exact transCount_markProps f st.props 0
      rw [this, destrFrame_eq, pow_add]
      ring

end TurboDrift
